import Mathlib

/-! GNCMakeBridge example helpers: file_utils and string_utils.

A shallow embedding of `examples/gn_to_cmake/file_utils.cc` (whole-file read and
write through `std::ifstream` / `std::ofstream`) and of the case transforms
declared in `examples/gn_to_cmake/string_utils.h` and `utils.h`.

A `std::string` is a finite sequence of 8-bit characters, embedded as a list of
bytes.
-/

set_option maxRecDepth 4000

/-- One `char` of a `std::string`: an 8-bit value. -/
abbrev Byte := Fin 256

/-- Embedding of `std::string`: the sequence of its bytes (length-delimited, so
    a zero byte is an ordinary element). -/
abbrev Str := List Byte

/-- Bytes of an ASCII literal, used to write test inputs readably. -/
def lit (s : String) : Str := s.toList.map (fun ch => Fin.ofNat ch.toNat)

namespace string_utils

/-- Modelled from the spec: the classification behind "non-alphabetic
    characters" is not in the sources. Under the byte-wise, locale-independent
    mapping the alphabetic bytes are the ASCII letters `A`..`Z` and `a`..`z`. -/
def isalpha (c : Byte) : Bool :=
  (65 ≤ c.val && c.val ≤ 90) || (97 ≤ c.val && c.val ≤ 122)

/-- Modelled from the spec: the per-character mapping used by `uppercase` is not
    in the sources. "mapped to its uppercase form using the default/byte-wise
    locale-independent mapping (non-alphabetic characters unchanged)": a byte
    in `a`..`z` goes to the byte 32 below it, every other byte is kept. -/
def toupper (c : Byte) : Byte :=
  if 97 ≤ c.val ∧ c.val ≤ 122 then Fin.ofNat (c.val - 32) else c

/-- Modelled from the spec: the per-character mapping used by `lowercase` is not
    in the sources. "symmetric, mapping to lowercase": a byte in `A`..`Z` goes
    to the byte 32 above it, every other byte is kept. -/
def tolower (c : Byte) : Byte :=
  if 65 ≤ c.val ∧ c.val ≤ 90 then Fin.ofNat (c.val + 32) else c

/-- Modelled from the spec: `string_utils::uppercase` is only declared in
    string_utils.h and utils.h, its body is missing. "returns a copy of `s` with
    every character mapped to its uppercase form using the default/byte-wise
    locale-independent mapping (non-alphabetic characters unchanged)". -/
def uppercase (input : Str) : Str :=
  match input with
  | [] => []
  | c :: rest => toupper c :: uppercase rest

/-- Modelled from the spec: `string_utils::lowercase` is only declared in
    string_utils.h and utils.h, its body is missing. "symmetric, mapping to
    lowercase". -/
def lowercase (input : Str) : Str :=
  match input with
  | [] => []
  | c :: rest => tolower c :: lowercase rest

end string_utils

/-! ## File-system state

`std::ifstream` and `std::ofstream` hand the path string to the host file
system, which resolves it to a file. The state therefore keeps three things
apart: which file a path string names (several strings may name one file:
`old.txt` and `./old.txt`, links, a string cut at its first zero character),
what the directory part of a path allows, and what each file holds.
-/

/-- A file path, as handed to the stream constructors. -/
abbrev PathName := String

/-- Identity of the file a path resolves to. Paths that name the same file
    share it; for a path at which no file exists yet it is the place where
    opening for output would create one. -/
abbrev FileId := String

/-- A regular file: its bytes and the two permission bits that decide whether
    the caller may open it for input and for output. -/
structure File where
  data : Str
  readable : Bool
  writable : Bool
deriving DecidableEq, Repr

/-- State of the directory part of a path. -/
inductive Dir where
  /-- The directory does not exist: nothing can be opened through this path. -/
  | missing
  /-- The directory exists but no new file may be created in it; files that
      already exist in it are opened according to their own permissions. -/
  | unwritable
  /-- The directory exists and new files may be created in it. -/
  | writable
deriving DecidableEq, Repr

/-- What opening a path finds. -/
inductive Entry where
  /-- A regular file exists at the path. -/
  | file (f : File)
  /-- No file at the path; its directory exists and is writable, so opening for
      output creates the file. -/
  | absent
  /-- The directory part of the path does not exist. -/
  | noDir
  /-- No file at the path, and its directory exists but is not writable. -/
  | dirUnwritable
deriving DecidableEq, Repr

/-- File-system state: path resolution, the state of the directory part of
    every path, the file stored under every identity, and the number of bytes
    the device can still store. -/
structure FileSystem where
  resolve : PathName → FileId
  dir : PathName → Dir
  file : FileId → Option File
  free : Nat

namespace FileSystem

/-- Path lookup, as done by an open call: the directory part must exist, then
    the file the path resolves to is found, if there is one. -/
def entry (fs : FileSystem) (p : PathName) : Entry :=
  match fs.dir p with
  | .missing => .noDir
  | .unwritable =>
      match fs.file (fs.resolve p) with
      | some f => .file f
      | none => .dirUnwritable
  | .writable =>
      match fs.file (fs.resolve p) with
      | some f => .file f
      | none => .absent

/-- Store a file under one identity and set the free room, leaving every other
    file, the directories and path resolution as they are. Every path that
    resolves to this identity sees the new file. -/
def setFile (fs : FileSystem) (id : FileId) (f : File) (free : Nat) : FileSystem :=
  ⟨fs.resolve, fs.dir, fun i => if i = id then some f else fs.file i, free⟩

end FileSystem

/-- `std::ifstream file(filename)` followed by `file.is_open()`: the open
    succeeds exactly when a file exists at the path and may be read. An open
    stream gives access to the bytes of the file (`file.rdbuf()`). -/
def ifstream_open (fs : FileSystem) (filename : PathName) : Option Str :=
  match fs.entry filename with
  | .file f => if f.readable then some f.data else none
  | _ => none

/-- `std::ofstream file(filename)` followed by `file.is_open()`: default mode
    `ios_base::out`, which truncates. An existing file must be writable and is
    emptied (its bytes are given back to the device), whatever its directory
    allows; a missing file is created empty, readable and writable by the
    caller, when its directory is writable. A failed open leaves the file
    system as it was and yields no stream. -/
def ofstream_open (fs : FileSystem) (filename : PathName) : Option FileSystem :=
  match fs.entry filename with
  | .file f =>
      if f.writable then
        some (fs.setFile (fs.resolve filename) { f with data := [] } (fs.free + f.data.length))
      else none
  | .absent => some (fs.setFile (fs.resolve filename) ⟨[], true, true⟩ fs.free)
  | .noDir => none
  | .dirUnwritable => none

/-- `file << content` on an open output stream, together with the flush and
    close done by the stream's destructor: the bytes are appended to the file
    as far as the device has room; what does not fit is lost and only the
    stream's own error state (returned here as the flag) records it. -/
def ofstream_put (fs : FileSystem) (filename : PathName) (content : Str) : Bool × FileSystem :=
  match fs.entry filename with
  | .file f =>
      let stored := content.take fs.free
      (decide (content.length ≤ fs.free),
        fs.setFile (fs.resolve filename) { f with data := f.data ++ stored }
          (fs.free - stored.length))
  | _ => (false, fs)

namespace file_utils

/-- Embedding of `file_utils::read_file` (file_utils.cc, lines 6-14). The result is the
    returned string and the file-system state after the call. -/
def read_file (fs : FileSystem) (filename : PathName) : Str × FileSystem :=
  match ifstream_open fs filename with
  | none => ([], fs)                      -- if (!file.is_open()) return "";
  | some bytes =>
      let buffer : Str := [] ++ bytes     -- buffer << file.rdbuf();
      (buffer, fs)                        -- return buffer.str();

/-- Embedding of `file_utils::write_file` (file_utils.cc, lines 16-23). The result is the
    returned flag and the file-system state after the call. -/
def write_file (fs : FileSystem) (filename : PathName) (content : Str) : Bool × FileSystem :=
  match ofstream_open fs filename with
  | none => (false, fs)                   -- if (!file.is_open()) return false;
  | some opened =>
      let put := ofstream_put opened filename content   -- file << content;
      (true, put.2)                       -- return true;

end file_utils

/-! ## Sample states used to evaluate the operations -/

/-- The part of a path string the stream constructors pass on (`c_str()`): it
    ends before the first zero character. -/
def cutAtZero : List Char → List Char
  | [] => []
  | ch :: rest => if ch = Char.ofNat 0 then [] else ch :: cutAtZero rest

/-- Drop the leading `./` steps of a path. -/
def dropDotSlash : List Char → List Char
  | [] => []
  | [ch] => [ch]
  | ch :: ch2 :: rest =>
      if ch = Char.ofNat 46 ∧ ch2 = Char.ofNat 47 then dropDotSlash rest else ch :: ch2 :: rest

/-- Path resolution of the sample system: the string is cut at its first zero
    character and leading `./` steps are dropped, so `./old.txt` and `old.txt`
    name the same file. -/
def sampleResolve (q : PathName) : FileId := String.mk (dropDotSlash (cutAtZero q.data))

/-- A device with `free` bytes of room. The directory `nowhere` is missing and
    the directory `ro` is unwritable; every other directory is writable. The
    files are `old.txt` (readable, writable, content "previous content"),
    `empty.txt` (readable, writable, no bytes), `secret.txt` (not readable,
    writable), `fixed.txt` (readable, not writable) and `ro/log.txt` (readable,
    writable, content "log", in the unwritable directory). No file exists at
    `ro/x` or at `nowhere/x`. -/
def sampleFS (free : Nat) : FileSystem :=
  ⟨sampleResolve,
    fun q =>
      if sampleResolve q = "nowhere/x" then .missing
      else if sampleResolve q = "ro/x" ∨ sampleResolve q = "ro/log.txt" then .unwritable
      else .writable,
    fun id =>
      if id = "old.txt" then some ⟨lit "previous content", true, true⟩
      else if id = "empty.txt" then some ⟨[], true, true⟩
      else if id = "secret.txt" then some ⟨lit "hidden", false, true⟩
      else if id = "fixed.txt" then some ⟨lit "constant", true, false⟩
      else if id = "ro/log.txt" then some ⟨lit "log", true, true⟩
      else none,
    free⟩

/-! ## Case transforms -/

namespace string_utils

theorem toupper_val (c : Byte) :
    (toupper c).val = if 97 ≤ c.val ∧ c.val ≤ 122 then c.val - 32 else c.val := by
  unfold toupper
  split
  · have h := c.isLt
    simp only [Fin.ofNat, Fin.val_mk]
    omega
  · rfl

theorem tolower_val (c : Byte) :
    (tolower c).val = if 65 ≤ c.val ∧ c.val ≤ 90 then c.val + 32 else c.val := by
  unfold tolower
  split
  · simp only [Fin.ofNat, Fin.val_mk]
    omega
  · rfl

theorem toupper_toupper (c : Byte) : toupper (toupper c) = toupper c := by
  apply Fin.ext
  rw [toupper_val (toupper c), toupper_val c]
  split_ifs <;> omega

theorem tolower_tolower (c : Byte) : tolower (tolower c) = tolower c := by
  apply Fin.ext
  rw [tolower_val (tolower c), tolower_val c]
  split_ifs <;> omega

theorem toupper_of_not_isalpha (c : Byte) (h : isalpha c = false) : toupper c = c := by
  apply Fin.ext
  rw [toupper_val]
  simp only [isalpha, Bool.or_eq_false_iff, Bool.and_eq_false_iff, decide_eq_false_iff_not] at h
  split_ifs <;> omega

theorem tolower_of_not_isalpha (c : Byte) (h : isalpha c = false) : tolower c = c := by
  apply Fin.ext
  rw [tolower_val]
  simp only [isalpha, Bool.or_eq_false_iff, Bool.and_eq_false_iff, decide_eq_false_iff_not] at h
  split_ifs <;> omega

theorem uppercase_eq_map (s : Str) : uppercase s = s.map toupper := by
  induction s with
  | nil => rfl
  | cons c rest ih => simp [uppercase, ih]

theorem lowercase_eq_map (s : Str) : lowercase s = s.map tolower := by
  induction s with
  | nil => rfl
  | cons c rest ih => simp [lowercase, ih]

/-- C4: the case transforms are idempotent: for every string `s`,
    `uppercase (uppercase s) = uppercase s` and
    `lowercase (lowercase s) = lowercase s`. -/
theorem case_transforms_idempotent (s : Str) :
    uppercase (uppercase s) = uppercase s ∧ lowercase (lowercase s) = lowercase s := by
  constructor
  · induction s with
    | nil => rfl
    | cons c rest ih => simp [uppercase, ih, toupper_toupper]
  · induction s with
    | nil => rfl
    | cons c rest ih => simp [lowercase, ih, tolower_tolower]

/-- C5: a string made of non-alphabetic characters only (the empty string
    included) is left as it is by `uppercase` and by `lowercase`. -/
theorem case_transforms_fix_non_alphabetic (s : Str)
    (h : ∀ c ∈ s, isalpha c = false) : uppercase s = s ∧ lowercase s = s := by
  induction s with
  | nil => exact ⟨rfl, rfl⟩
  | cons c rest ih =>
    have hc : isalpha c = false := h c (List.mem_cons_self c rest)
    have hrest := ih (fun d hd => h d (List.mem_cons_of_mem c hd))
    exact ⟨by simp [uppercase, toupper_of_not_isalpha c hc, hrest.1],
      by simp [lowercase, tolower_of_not_isalpha c hc, hrest.2]⟩

/-- Witness for C5 on the string "12, 34!" (digits, comma, blank, exclamation mark). -/
theorem case_transforms_fix_non_alphabetic_witness :
    (∀ c ∈ lit "12, 34!", isalpha c = false) ∧
      uppercase (lit "12, 34!") = lit "12, 34!" ∧ lowercase (lit "12, 34!") = lit "12, 34!" :=
  ⟨by decide, case_transforms_fix_non_alphabetic (lit "12, 34!") (by decide)⟩

/-- C6: `uppercase` and `lowercase` work position by position: the result has
    the length of the input, its character at each position is the upper-case
    (lower-case) form of the input character there, and a non-alphabetic
    character is unchanged; `uppercase "Hello, World!" = "HELLO, WORLD!"` and
    `lowercase "Hello, World!" = "hello, world!"`. -/
theorem case_transforms_positionwise :
    (∀ s : Str,
      (uppercase s).length = s.length ∧ (lowercase s).length = s.length ∧
      (∀ i : Nat, (uppercase s)[i]? = (s[i]?).map toupper) ∧
      (∀ i : Nat, (lowercase s)[i]? = (s[i]?).map tolower) ∧
      (∀ (i : Nat) (c : Byte), s[i]? = some c → isalpha c = false →
        (uppercase s)[i]? = some c ∧ (lowercase s)[i]? = some c)) ∧
    uppercase (lit "Hello, World!") = lit "HELLO, WORLD!" ∧
    lowercase (lit "Hello, World!") = lit "hello, world!" := by
  refine ⟨fun s => ⟨?_, ?_, ?_, ?_, ?_⟩, by decide, by decide⟩
  · simp [uppercase_eq_map]
  · simp [lowercase_eq_map]
  · intro i
    simp [uppercase_eq_map]
  · intro i
    simp [lowercase_eq_map]
  · intro i c hi hc
    simp [uppercase_eq_map, lowercase_eq_map, hi, toupper_of_not_isalpha c hc,
      tolower_of_not_isalpha c hc]

/-- Witness for C6 on "a-Z": position 1 holds the non-alphabetic `-`, which both
    transforms keep. -/
theorem case_transforms_positionwise_witness :
    (uppercase (lit "a-Z"))[1]? = some 45 ∧ (lowercase (lit "a-Z"))[1]? = some 45 :=
  (case_transforms_positionwise.1 (lit "a-Z")).2.2.2.2 1 45 (by decide) (by decide)

/-- C8: case folding is not reversible: some string `s` has
    `uppercase (lowercase s) ≠ s`; the mixed-case "Hello" is one, it comes back
    as "HELLO". -/
theorem case_folding_not_reversible :
    (∃ s : Str, uppercase (lowercase s) ≠ s) ∧
      uppercase (lowercase (lit "Hello")) = lit "HELLO" ∧
      uppercase (lowercase (lit "Hello")) ≠ lit "Hello" :=
  ⟨⟨lit "Hello", by decide⟩, by decide, by decide⟩

end string_utils

/-! ## File operations -/

theorem entry_setFile_same (fs : FileSystem) (p : PathName) (f : File) (n : Nat)
    (h : fs.dir p ≠ .missing) : (fs.setFile (fs.resolve p) f n).entry p = .file f := by
  unfold FileSystem.entry FileSystem.setFile
  cases hd : fs.dir p with
  | missing => exact absurd hd h
  | unwritable => simp [hd]
  | writable => simp [hd]

theorem entry_setFile_other (fs : FileSystem) (id : FileId) (q : PathName) (f : File) (n : Nat)
    (h : fs.resolve q ≠ id) : (fs.setFile id f n).entry q = fs.entry q := by
  unfold FileSystem.entry FileSystem.setFile
  simp [h]

theorem dir_ne_missing_of_entry_file (fs : FileSystem) (p : PathName) (f : File)
    (h : fs.entry p = .file f) : fs.dir p ≠ .missing := by
  intro hd
  simp [FileSystem.entry, hd] at h

theorem dir_ne_missing_of_entry_absent (fs : FileSystem) (p : PathName)
    (h : fs.entry p = .absent) : fs.dir p ≠ .missing := by
  intro hd
  simp [FileSystem.entry, hd] at h

theorem ifstream_open_eq_none_iff (fs : FileSystem) (p : PathName) :
    ifstream_open fs p = none ↔ ∀ f, fs.entry p = .file f → f.readable = false := by
  unfold ifstream_open
  cases h : fs.entry p with
  | file f => cases hr : f.readable <;> simp [hr]
  | absent => simp
  | noDir => simp
  | dirUnwritable => simp

/-- A successful open for output leaves at the path an empty file, keeps path
    resolution, and touches no path that resolves to another file. -/
theorem ofstream_open_some (fs opened : FileSystem) (p : PathName)
    (h : ofstream_open fs p = some opened) :
    (∃ r w, opened.entry p = .file ⟨[], r, w⟩) ∧ opened.resolve = fs.resolve ∧
      ∀ q, fs.resolve q ≠ fs.resolve p → opened.entry q = fs.entry q := by
  unfold ofstream_open at h
  cases he : fs.entry p with
  | file f =>
    rw [he] at h
    cases hw : f.writable with
    | false => simp [hw] at h
    | true =>
      simp only [hw, if_true, Option.some.injEq] at h
      subst h
      exact ⟨⟨f.readable, true,
          by simpa [hw] using entry_setFile_same fs p _ _ (dir_ne_missing_of_entry_file fs p f he)⟩, rfl,
        fun q hq => entry_setFile_other fs _ q _ _ hq⟩
  | absent =>
    rw [he] at h
    simp only [Option.some.injEq] at h
    subst h
    exact ⟨⟨true, true, entry_setFile_same fs p _ _ (dir_ne_missing_of_entry_absent fs p he)⟩,
      rfl, fun q hq => entry_setFile_other fs _ q _ _ hq⟩
  | noDir => rw [he] at h; simp at h
  | dirUnwritable => rw [he] at h; simp at h

/-- Putting bytes through an open output stream touches no path that resolves
    to another file. -/
theorem ofstream_put_other (fs : FileSystem) (p q : PathName) (c : Str)
    (hq : fs.resolve q ≠ fs.resolve p) : (ofstream_put fs p c).2.entry q = fs.entry q := by
  unfold ofstream_put
  cases fs.entry p with
  | file f => exact entry_setFile_other fs _ q _ _ hq
  | absent => rfl
  | noDir => rfl
  | dirUnwritable => rfl

theorem read_file_fst (fs : FileSystem) (p : PathName) :
    (file_utils.read_file fs p).1 = (ifstream_open fs p).getD [] := by
  unfold file_utils.read_file
  cases ifstream_open fs p <;> simp

theorem read_file_snd (fs : FileSystem) (p : PathName) : (file_utils.read_file fs p).2 = fs := by
  unfold file_utils.read_file
  cases ifstream_open fs p <;> simp

/-- What `read_file` returns depends on what the lookup of its path finds only. -/
theorem read_file_congr (fs fs2 : FileSystem) (q : PathName) (h : fs2.entry q = fs.entry q) :
    (file_utils.read_file fs2 q).1 = (file_utils.read_file fs q).1 := by
  simp [read_file_fst, ifstream_open, h]

theorem write_file_fst (fs : FileSystem) (p : PathName) (c : Str) :
    (file_utils.write_file fs p c).1 = (ofstream_open fs p).isSome := by
  unfold file_utils.write_file
  cases ofstream_open fs p <;> simp

theorem write_file_snd_of_false (fs : FileSystem) (p : PathName) (c : Str)
    (h : (file_utils.write_file fs p c).1 = false) : (file_utils.write_file fs p c).2 = fs := by
  unfold file_utils.write_file at h ⊢
  cases ho : ofstream_open fs p with
  | none => simp
  | some opened => simp [ho] at h

theorem write_file_entry_other (fs : FileSystem) (p q : PathName) (c : Str)
    (hq : fs.resolve q ≠ fs.resolve p) :
    (file_utils.write_file fs p c).2.entry q = fs.entry q := by
  unfold file_utils.write_file
  cases ho : ofstream_open fs p with
  | none => simp
  | some opened =>
    obtain ⟨_, hres, hother⟩ := ofstream_open_some fs opened p ho
    simp only
    rw [ofstream_put_other opened p q c (by rw [hres]; exact hq)]
    exact hother q hq

namespace file_utils

/-- C1 (as stated, refuted): being able to open `p` for writing does not make
    the round trip hold. On a full device `write_file "empty.txt" "abc"` opens
    the file, stores nothing and returns true, and `read_file` then returns "";
    on the write-only `secret.txt` the write stores "abc" and returns true, but
    `read_file` cannot open the file and returns "". -/
theorem round_trip_fails_when_not_stored_or_unreadable :
    ((ofstream_open (sampleFS 0) "empty.txt").isSome = true ∧
      (write_file (sampleFS 0) "empty.txt" (lit "abc")).1 = true ∧
      (read_file (write_file (sampleFS 0) "empty.txt" (lit "abc")).2 "empty.txt").1 = [] ∧
      (read_file (write_file (sampleFS 0) "empty.txt" (lit "abc")).2 "empty.txt").1
        ≠ lit "abc") ∧
    ((ofstream_open (sampleFS 100) "secret.txt").isSome = true ∧
      (write_file (sampleFS 100) "secret.txt" (lit "abc")).1 = true ∧
      (read_file (write_file (sampleFS 100) "secret.txt" (lit "abc")).2 "secret.txt").1 = [] ∧
      (read_file (write_file (sampleFS 100) "secret.txt" (lit "abc")).2 "secret.txt").1
        ≠ lit "abc") := by
  decide

/-- C1 (amended): in every state in which `p` can be opened for writing,
    `write_file p c` returns true, whatever `p` held before; if moreover the
    device, once `p` is truncated, has room for all of `c`, and `p` can be
    opened for reading after the call, then `read_file p` returns exactly `c`:
    nothing of the old content is left, nothing is added, nothing is dropped. -/
theorem write_then_read_round_trip (fs opened : FileSystem) (p : PathName) (c : Str)
    (hopen : ofstream_open fs p = some opened) :
    (write_file fs p c).1 = true ∧
      (c.length ≤ opened.free → (ifstream_open (write_file fs p c).2 p).isSome = true →
        (read_file (write_file fs p c).2 p).1 = c) := by
  refine ⟨by simp [write_file_fst, hopen], fun hroom hread => ?_⟩
  obtain ⟨⟨r, w, he⟩, _⟩ := ofstream_open_some fs opened p hopen
  have hdir := dir_ne_missing_of_entry_file opened p _ he
  have hstate : (write_file fs p c).2 = (ofstream_put opened p c).2 := by
    simp [write_file, hopen]
  rw [hstate] at hread ⊢
  have hentry : (ofstream_put opened p c).2.entry p = .file ⟨c, r, w⟩ := by
    simp only [ofstream_put, he, List.nil_append, List.take_of_length_le hroom]
    exact entry_setFile_same opened p _ _ hdir
  rw [read_file_fst]
  cases hr : r with
  | false => simp [ifstream_open, hentry, hr] at hread
  | true => simp [ifstream_open, hentry, hr]

/-- Witness for C1 (amended): `old.txt` holds the 16 bytes "previous content"
    on a device with no free room; truncation releases them, "abc" fits, and
    reading back gives "abc" with nothing of the longer old content left. -/
theorem write_then_read_round_trip_witness :
    (lit "abc").length ≤ 16 ∧
      (ifstream_open (write_file (sampleFS 0) "old.txt" (lit "abc")).2 "old.txt").isSome = true ∧
      (write_file (sampleFS 0) "old.txt" (lit "abc")).1 = true ∧
      (read_file (write_file (sampleFS 0) "old.txt" (lit "abc")).2 "old.txt").1 = lit "abc" :=
  have h := write_then_read_round_trip (sampleFS 0)
    ((sampleFS 0).setFile "old.txt" ⟨[], true, true⟩ 16) "old.txt" (lit "abc") rfl
  ⟨by decide, by decide, h.1, h.2 (by decide) (by decide)⟩

/-- C2: when `p` cannot be opened for reading (no file there, or reading not
    permitted), `read_file p` returns the empty string; the result is an
    ordinary string, with no error value, and the file system is untouched. -/
theorem read_file_unopenable_gives_empty (fs : FileSystem) (p : PathName)
    (h : ifstream_open fs p = none) :
    (read_file fs p).1 = [] ∧ (read_file fs p).2 = fs := by
  simp [read_file, h]

/-- Witness for C2: `secret.txt` exists but may not be read. -/
theorem read_file_unopenable_gives_empty_witness :
    ifstream_open (sampleFS 0) "secret.txt" = none ∧
      (read_file (sampleFS 0) "secret.txt").1 = [] :=
  ⟨by decide, (read_file_unopenable_gives_empty (sampleFS 0) "secret.txt" (by decide)).1⟩

/-- C7: `read_file` gives the empty string both for an existing, readable file
    of zero length and for a path that cannot be opened, so the two cases look
    alike to the caller; and whenever `read_file` returns a non-empty string,
    the open succeeded and the file is non-empty (the string is its content). -/
theorem read_file_empty_file_like_failed_open (fs : FileSystem) (p q : PathName) (f : File)
    (hp : fs.entry p = .file f) (hreadable : f.readable = true) (hempty : f.data = [])
    (hq : ifstream_open fs q = none) :
    ((read_file fs p).1 = [] ∧ (read_file fs q).1 = [] ∧
      (read_file fs p).1 = (read_file fs q).1) ∧
    (∀ r : PathName, (read_file fs r).1 ≠ [] →
      ∃ g : File, fs.entry r = .file g ∧ g.readable = true ∧ g.data ≠ [] ∧
        ifstream_open fs r = some g.data ∧ (read_file fs r).1 = g.data) := by
  have h1 : (read_file fs p).1 = [] := by
    simp [read_file_fst, ifstream_open, hp, hreadable, hempty]
  have h2 : (read_file fs q).1 = [] := by simp [read_file_fst, hq]
  refine ⟨⟨h1, h2, h1.trans h2.symm⟩, fun r hr => ?_⟩
  rw [read_file_fst] at hr
  cases he : fs.entry r with
  | file g =>
    cases hg : g.readable with
    | false => simp [ifstream_open, he, hg] at hr
    | true =>
      have ho : ifstream_open fs r = some g.data := by simp [ifstream_open, he, hg]
      rw [ho] at hr
      exact ⟨g, rfl, hg, by simpa using hr, ho, by simp [read_file_fst, ho]⟩
  | absent => simp [ifstream_open, he] at hr
  | noDir => simp [ifstream_open, he] at hr
  | dirUnwritable => simp [ifstream_open, he] at hr

/-- Witness for C7: the empty `empty.txt` and the missing `missing.txt` both
    read as "", while `old.txt` reads as its non-empty content. -/
theorem read_file_empty_file_like_failed_open_witness :
    ((read_file (sampleFS 0) "empty.txt").1 = [] ∧ (read_file (sampleFS 0) "missing.txt").1 = [] ∧
      (read_file (sampleFS 0) "empty.txt").1 = (read_file (sampleFS 0) "missing.txt").1) ∧
    ∃ g : File, (sampleFS 0).entry "old.txt" = .file g ∧ g.readable = true ∧ g.data ≠ [] ∧
      ifstream_open (sampleFS 0) "old.txt" = some g.data ∧
      (read_file (sampleFS 0) "old.txt").1 = g.data :=
  have h := read_file_empty_file_like_failed_open (sampleFS 0) "empty.txt" "missing.txt"
    ⟨[], true, true⟩ (by decide) rfl rfl (by decide)
  ⟨h.1, h.2 "old.txt" (by decide)⟩

/-- C9: when `write_file p c` returns false, the file system is as it was
    before the call, so `read_file q` returns for every path `q` what it
    returned before. -/
theorem write_file_failure_changes_nothing (fs : FileSystem) (p : PathName) (c : Str)
    (h : (write_file fs p c).1 = false) :
    (write_file fs p c).2 = fs ∧
      ∀ q : PathName, (read_file (write_file fs p c).2 q).1 = (read_file fs q).1 := by
  have hs := write_file_snd_of_false fs p c h
  exact ⟨hs, fun q => by rw [hs]⟩

/-- Witness for C9: `fixed.txt` is not writable; the failed write leaves its
    content "constant" in place. -/
theorem write_file_failure_changes_nothing_witness :
    (write_file (sampleFS 100) "fixed.txt" (lit "abc")).1 = false ∧
      (read_file (write_file (sampleFS 100) "fixed.txt" (lit "abc")).2 "fixed.txt").1
        = lit "constant" :=
  ⟨by decide,
    ((write_file_failure_changes_nothing (sampleFS 100) "fixed.txt" (lit "abc")
      (by decide)).2 "fixed.txt").trans (by decide)⟩

/-- C10 (as stated, refuted): a path different from `p` may name the same file.
    `./old.txt` and `old.txt` are different strings; before the successful
    `write_file "old.txt" "abc"` the call `read_file "./old.txt"` returns
    "previous content", after it "abc". -/
theorem write_file_changes_other_name_of_same_file :
    "./old.txt" ≠ "old.txt" ∧
      (write_file (sampleFS 100) "old.txt" (lit "abc")).1 = true ∧
      (read_file (sampleFS 100) "./old.txt").1 = lit "previous content" ∧
      (read_file (write_file (sampleFS 100) "old.txt" (lit "abc")).2 "./old.txt").1
        = lit "abc" ∧
      (read_file (write_file (sampleFS 100) "old.txt" (lit "abc")).2 "./old.txt").1
        ≠ (read_file (sampleFS 100) "./old.txt").1 := by
  decide

/-- C10 (amended): `write_file p c` (successful, and also when it fails) changes
    the content of the file `p` names only: for every path `q` that does not
    resolve to the same file as `p`, `read_file q` returns the same string
    before and after; and `read_file p` leaves the whole state as it was, so a
    second `read_file p` returns the same string as the first. -/
theorem file_operations_frame (fs : FileSystem) (p q : PathName) (c : Str)
    (hq : fs.resolve q ≠ fs.resolve p) :
    ((write_file fs p c).2.entry q = fs.entry q ∧
      (read_file (write_file fs p c).2 q).1 = (read_file fs q).1) ∧
    ((read_file fs p).2 = fs ∧
      (read_file (read_file fs p).2 p).1 = (read_file fs p).1) := by
  have he := write_file_entry_other fs p q c hq
  exact ⟨⟨he, read_file_congr fs _ q he⟩, read_file_snd fs p, by rw [read_file_snd]⟩

/-- Witness for C10 (amended): `fixed.txt` names another file than `old.txt`,
    and the successful overwrite of `old.txt` leaves it reading "constant". -/
theorem file_operations_frame_witness :
    (sampleFS 100).resolve "fixed.txt" ≠ (sampleFS 100).resolve "old.txt" ∧
      (write_file (sampleFS 100) "old.txt" (lit "abc")).1 = true ∧
      (read_file (write_file (sampleFS 100) "old.txt" (lit "abc")).2 "fixed.txt").1
        = lit "constant" :=
  ⟨by decide, by decide,
    ((file_operations_frame (sampleFS 100) "old.txt" "fixed.txt" (lit "abc")
      (by decide)).1.2).trans (by decide)⟩

end file_utils
